import Mathlib

/-!
Verification development for the `commander` task-runner service.

The Go source is embedded shallowly:

* `internal/task/task.go`      → `Commander.TaskData` and its mutators
* `internal/task/manager.go`   → `Commander.ManagerState` and its operations
* `internal/storage/sqlite.go` → `Commander.StoreState` / `Commander.FileStore`
* `internal/executor/executor.go` → `Commander.readLine`, `Commander.pumpPipe`,
  `Commander.observeExit`, `Commander.executeTask`, `Commander.workerStep`
* `internal/api/server.go`     → `Commander.cancelTask`
* `internal/files` (discovery) → `Commander.discoverFilesFromOutput`,
  `Commander.registerFileFromTask`

Wall-clock instants are modelled as natural numbers; Go's zero `time.Time`
is modelled as `Option.none`.  Process behaviour (exit code, pipe lines,
spawn failures) is passed explicitly as a `ProcessOutcome`; the filesystem
(`os.Stat`) is a function `String → Option FileInfo`.  Go regular
expressions are modelled by a small backtracking engine with Go's
leftmost-first, greedy semantics; each pattern of the discovery table is
transliterated into the engine's syntax.
-/

namespace Commander

/-- Wall-clock instants (`time.Time`), abstracted to a counter. -/
abbrev Time := Nat

/-- Task status, from the constants in `internal/task/task.go` /
`internal/types/task.go`. -/
inductive Status where
  | queued
  | running
  | complete
  | failed
  | canceled
deriving DecidableEq, Repr

/-- The string value of a status constant (`StatusQueued = "queued"`, ...). -/
def Status.toGoString : Status → String
  | .queued => "queued"
  | .running => "running"
  | .complete => "complete"
  | .failed => "failed"
  | .canceled => "canceled"

/-- Whether a status is terminal (`Complete`, `Failed`, `Canceled`). -/
def Status.isTerminal : Status → Bool
  | .complete => true
  | .failed => true
  | .canceled => true
  | _ => false

/-- The data fields of a task (`TaskData` in `internal/task/task.go`).
`Output` is the in-memory ordered line list; the zero `time.Time` values of
`StartedAt` / `EndedAt` are `none`. -/
structure TaskData where
  id : String
  tool : String
  command : String
  args : List String
  status : Status
  output : List String
  error : String
  createdAt : Time
  startedAt : Option Time
  endedAt : Option Time
deriving DecidableEq, Repr

/-- `Task.AppendOutput` (task.go): append the line to `Output`. -/
def TaskData.appendOutput (t : TaskData) (line : String) : TaskData :=
  { t with output := t.output ++ [line] }

/-- `Task.SetStatus` (task.go): unconditionally write the new status, then
set `StartedAt` on `Running` and `EndedAt` on a terminal status (the clock
argument models `time.Now()`). -/
def TaskData.setStatus (t : TaskData) (status : Status) (now : Time) : TaskData :=
  let t := { t with status := status }
  match status with
  | .running => { t with startedAt := some now }
  | .complete => { t with endedAt := some now }
  | .failed => { t with endedAt := some now }
  | .canceled => { t with endedAt := some now }
  | .queued => t

/-- `Task.SetError` (task.go): overwrite the error message. -/
def TaskData.setError (t : TaskData) (err : String) : TaskData :=
  { t with error := err }

/-- `Task.Clone` (task.go): deep copy; the identity on immutable values. -/
def TaskData.clone (t : TaskData) : TaskData := t

end Commander

namespace Commander

/-! Go regular expressions, as used by the discovery pattern table.

The engine covers exactly the constructs those eight patterns use:
literal strings, single characters of a class, greedy repetition of a
character class, alternation of literal strings, capture groups, and the
`$` anchor.  `matchRe` enumerates the ways a regex can consume a prefix of
the input in Go's (leftmost-first, greedy) backtracking priority order;
`findFrom` scans start positions left to right, which together give
`regexp.FindStringSubmatch` semantics. -/

/-- Capture environment: capture-group index to captured substring. -/
abbrev Caps := List (Nat × String)

/-- Regex syntax. `rep p lo hi` is a greedy `{lo,hi}` repetition of the
character class `p` (`hi = none` means unbounded, as in `+`). -/
inductive Re where
  | eps
  | lit (s : String)
  | cls1 (p : Char → Bool)
  | rep (p : Char → Bool) (lo : Nat) (hi : Option Nat)
  | alts (ss : List String)
  | seq (a b : Re)
  | grp (n : Nat) (a : Re)
  | tail

/-- Sequence a list of regexes. -/
def Re.seqs : List Re → Re
  | [] => .eps
  | [r] => r
  | r :: rs => .seq r (Re.seqs rs)

/-- Drop a literal prefix, or fail. -/
def dropLit : List Char → List Char → Option (List Char)
  | [], cs => some cs
  | _ :: _, [] => none
  | p :: ps, c :: cs => if p = c then dropLit ps cs else none

/-- All ways `re` can match a prefix of `cs`, as `(rest, captures)` pairs,
in backtracking priority order (greedy repetitions longest first,
alternatives in order). -/
def matchRe : Re → List Char → List (List Char × Caps)
  | .eps, cs => [(cs, [])]
  | .lit s, cs =>
    match dropLit s.toList cs with
    | some rest => [(rest, [])]
    | none => []
  | .cls1 p, cs =>
    match cs with
    | [] => []
    | c :: rest => if p c then [(rest, [])] else []
  | .rep p lo hi, cs =>
    let run := (cs.takeWhile p).length
    let most := match hi with
      | some h => min run h
      | none => run
    if lo ≤ most then
      (List.range (most + 1 - lo)).map (fun k => (cs.drop (most - k), []))
    else []
  | .alts ss, cs =>
    ss.filterMap (fun s =>
      match dropLit s.toList cs with
      | some rest => some (rest, [])
      | none => none)
  | .seq a b, cs =>
    (matchRe a cs).flatMap (fun r1 =>
      (matchRe b r1.1).map (fun r2 => (r2.1, r1.2 ++ r2.2)))
  | .grp n a, cs =>
    (matchRe a cs).map (fun r =>
      (r.1, (n, String.mk (cs.take (cs.length - r.1.length))) :: r.2))
  | .tail, cs =>
    match cs with
    | [] => [([], [])]
    | _ :: _ => []

/-- First match scanning start positions left to right
(`FindStringSubmatch` without the text of the whole match). -/
def findFrom (re : Re) : List Char → Option Caps
  | [] =>
    match matchRe re [] with
    | r :: _ => some r.2
    | [] => none
  | c :: cs' =>
    match matchRe re (c :: cs') with
    | r :: _ => some r.2
    | [] => findFrom re cs'

/-- The capture of group `n` of the first match, if the regex matches. -/
def groupCapture (re : Re) (n : Nat) (line : String) : Option String :=
  (findFrom re line.toList).map (fun caps => ((caps.lookup n).getD ""))

/-- The extraction the Go code performs on a matching line:
`matches := pattern.FindStringSubmatch(line); matches[1]`
(every table pattern has at least one group, so `len(matches) > 1`
exactly when the pattern matched). -/
def extract1 (re : Re) (line : String) : Option String :=
  groupCapture re 1 line

/-- Character class `.` (any character but newline). -/
def dotP (c : Char) : Bool := c ≠ '\n'

/-- Character class `[a-zA-Z0-9]`. -/
def alnumP (c : Char) : Bool := c.isAlphanum

/-- Character class `\d`. -/
def digitP (c : Char) : Bool := c.isDigit

/-- Character class `\s` of Go's regexp (`[\t\n\f\r ]`). -/
def spaceP (c : Char) : Bool :=
  c = '\t' || c = '\n' || c = '\x0c' || c = '\r' || c = ' '

/-- Character class `['"]`. -/
def quoteP (c : Char) : Bool := c = '\'' || c = '"'

/-- Character class `[/\w\-.]` of the generic fallback pattern. -/
def pathCharP (c : Char) : Bool :=
  c = '/' || c.isAlphanum || c = '_' || c = '-' || c = '.'

/-- A row of `fileDetectionPatterns` (files discovery source). -/
structure FilePattern where
  tool : String
  re : Re
  description : String

/-- Pattern `\[download\] Destination: (.+)` for yt-dlp. -/
def ytDlpDestinationRe : Re :=
  Re.seqs [.lit "[download] Destination: ", .grp 1 (.rep dotP 1 none)]

/-- Pattern
`\[download\] (.+\.(?:mp4|mkv|webm|m4a|mp3|opus|flac))\s+has already been downloaded`
for yt-dlp. -/
def ytDlpAlreadyRe : Re :=
  Re.seqs [.lit "[download] ",
    .grp 1 (Re.seqs [.rep dotP 1 none, .lit ".",
      .alts ["mp4", "mkv", "webm", "m4a", "mp3", "opus", "flac"]]),
    .rep spaceP 1 none, .lit "has already been downloaded"]

/-- Pattern `\[ffmpeg\] Merging formats into "(.+)"` for yt-dlp. -/
def ytDlpMergeRe : Re :=
  Re.seqs [.lit "[ffmpeg] Merging formats into \"",
    .grp 1 (.rep dotP 1 none), .lit "\""]

/-- Pattern `saving to: ['"](.+)['"]` for wget. -/
def wgetSavingRe : Re :=
  Re.seqs [.lit "saving to: ", .cls1 quoteP,
    .grp 1 (.rep dotP 1 none), .cls1 quoteP]

/-- Pattern `'(.+)' saved \[\d+/\d+\]` for wget. -/
def wgetSavedRe : Re :=
  Re.seqs [.lit "'", .grp 1 (.rep dotP 1 none), .lit "' saved [",
    .rep digitP 1 none, .lit "/", .rep digitP 1 none, .lit "]"]

/-- Pattern `\[(.+)\] (.+\.[a-zA-Z0-9]+)$` for gallery-dl. -/
def galleryDlRe : Re :=
  Re.seqs [.lit "[", .grp 1 (.rep dotP 1 none), .lit "] ",
    .grp 2 (Re.seqs [.rep dotP 1 none, .lit ".", .rep alnumP 1 none]),
    .tail]

/-- Pattern `Output #0, .+, to '(.+)':` for ffmpeg. -/
def ffmpegOutputRe : Re :=
  Re.seqs [.lit "Output #0, ", .rep dotP 1 none, .lit ", to '",
    .grp 1 (.rep dotP 1 none), .lit "':"]

/-- Pattern `% Total.+\s+(.+)$` for curl. -/
def curlRe : Re :=
  Re.seqs [.lit "% Total", .rep dotP 1 none, .rep spaceP 1 none,
    .grp 1 (.rep dotP 1 none), .tail]

/-- Generic fallback pattern `([/\w\-.]+\.[a-zA-Z0-9]{2,4})` used when no
table entry exists for the tool. -/
def genericPathRe : Re :=
  Re.grp 1 (Re.seqs [.rep pathCharP 1 none, .lit ".", .rep alnumP 2 (some 4)])

/-- The table `fileDetectionPatterns`, in source order. -/
def fileDetectionPatterns : List FilePattern :=
  [⟨"yt-dlp", ytDlpDestinationRe, "YouTube download destination"⟩,
   ⟨"yt-dlp", ytDlpAlreadyRe, "Already downloaded file"⟩,
   ⟨"yt-dlp", ytDlpMergeRe, "Merged output file"⟩,
   ⟨"wget", wgetSavingRe, "Wget download target"⟩,
   ⟨"wget", wgetSavedRe, "Wget saved file"⟩,
   ⟨"gallery-dl", galleryDlRe, "Gallery download"⟩,
   ⟨"ffmpeg", ffmpegOutputRe, "FFmpeg output file"⟩,
   ⟨"curl", curlRe, "Curl download output (if -o specified)"⟩]

end Commander

namespace Commander

/-! String helpers mirroring the Go standard library calls the source uses. -/

/-- Whether `unicode.IsSpace` holds, over the Latin-1 range the inputs use
(`'\t'`, `'\n'`, `'\v'`, `'\f'`, `'\r'`, `' '`, U+0085, U+00A0). -/
def goIsSpace (c : Char) : Bool :=
  c = '\t' || c = '\n' || c = '\x0b' || c = '\x0c' || c = '\r' || c = ' ' ||
  c = '\x85' || c = '\xa0'

/-- `strings.TrimSpace`: drop leading and trailing white space. -/
def goTrimSpace (s : String) : String :=
  String.mk (((s.toList.dropWhile goIsSpace).reverse.dropWhile goIsSpace).reverse)

/-- `strings.Trim(s, "\"'")`: drop leading and trailing quote characters. -/
def goTrimQuotes (s : String) : String :=
  String.mk (((s.toList.dropWhile quoteP).reverse.dropWhile quoteP).reverse)

/-- `strings.HasPrefix`, via character lists (kernel-reducible). -/
def startsWithLit (s pre : String) : Bool :=
  (dropLit pre.toList s.toList).isSome

/-- Split a character list on a separator character. -/
def splitOnCharAux (sep : Char) : List Char → List Char → List (List Char)
  | [], cur => [cur.reverse]
  | c :: cs, cur =>
    if c = sep then cur.reverse :: splitOnCharAux sep cs []
    else splitOnCharAux sep cs (c :: cur)

/-- Split a character list on a separator character. -/
def splitOnChar (sep : Char) (cs : List Char) : List (List Char) :=
  splitOnCharAux sep cs []

/-- `filepath.Base`: the last component of a path. -/
def goBaseName (s : String) : String :=
  match ((splitOnChar '/' s.toList).filter (fun p => p ≠ [])).getLast? with
  | some b => String.mk b
  | none =>
    match s.toList with
    | '/' :: _ => "/"
    | _ => "."

end Commander

namespace Commander

/-! Discovery (`FileDiscovery` in the files package). -/

/-- What `os.Stat` reports about a path: directory flag and size. -/
structure FileInfo where
  isDir : Bool
  size : Nat
deriving DecidableEq, Repr

/-- The filesystem as seen through `os.Stat`: `none` models a stat error. -/
abbrev Fs := String → Option FileInfo

/-- `FileDiscovery.isValidFile`: the path stats successfully, is not a
directory, and has size greater than zero. -/
def isValidFile (fs : Fs) (path : String) : Bool :=
  match fs path with
  | none => false
  | some info => !info.isDir && info.size > 0

/-- The compiled patterns for a tool: the table rows whose `Tool` matches,
or the generic fallback when there are none
(`DiscoverFilesFromOutput`, first half). -/
def patternsFor (toolName : String) : List Re :=
  let toolPatterns :=
    (fileDetectionPatterns.filter (fun p => p.tool = toolName)).map (fun p => p.re)
  if toolPatterns.isEmpty then [genericPathRe] else toolPatterns

/-- The contribution of one pattern on one (trimmed) line
(`DiscoverFilesFromOutput`, inner loop body): when the pattern matches,
`strings.Trim(matches[1], "\"'")` if it stats as a valid file. -/
def candOf (fs : Fs) (line : String) (re : Re) : List String :=
  match extract1 re line with
  | some raw =>
    let filePath := goTrimQuotes raw
    if isValidFile fs filePath then [filePath] else []
  | none => []

/-- The candidate paths one output line contributes
(`DiscoverFilesFromOutput`, outer loop body): trim the line, skip it when
empty or `[ERROR]`-prefixed, and otherwise collect every pattern's
validated extraction. -/
def lineCandidates (fs : Fs) (pats : List Re) (line : String) : List String :=
  let line := goTrimSpace line
  if line = "" || startsWithLit line "[ERROR]" then []
  else pats.foldl (fun acc re => acc ++ candOf fs line re) []

/-- `FileDiscovery.deduplicateFiles`, with the `seen` set explicit. -/
def dedupAux (seen : List String) : List String → List String
  | [] => []
  | f :: fs =>
    if f ∈ seen then dedupAux seen fs
    else f :: dedupAux (f :: seen) fs

/-- `FileDiscovery.deduplicateFiles`: keep the first occurrence of each path. -/
def deduplicateFiles (files : List String) : List String :=
  dedupAux [] files

/-- `FileDiscovery.DiscoverFilesFromOutput`: analyse every output line with
the tool's patterns (or the generic fallback) and deduplicate the
validated paths. -/
def discoverFilesFromOutput (fs : Fs) (toolName : String)
    (output : List String) : List String :=
  let toolPatterns := patternsFor toolName
  deduplicateFiles
    (output.foldl (fun acc line => acc ++ lineCandidates fs toolPatterns line) [])

end Commander

namespace Commander

/-! The task store (`SQLiteRepository`, task tables). -/

/-- A row of the `tasks` table (no output column; output lives in
`task_outputs`). -/
structure TaskRow where
  id : String
  tool : String
  command : String
  args : List String
  status : Status
  error : String
  createdAt : Time
  startedAt : Option Time
  endedAt : Option Time
deriving DecidableEq, Repr

/-- Project a task snapshot onto its `tasks`-table row. -/
def TaskData.toRow (t : TaskData) : TaskRow :=
  { id := t.id, tool := t.tool, command := t.command, args := t.args,
    status := t.status, error := t.error, createdAt := t.createdAt,
    startedAt := t.startedAt, endedAt := t.endedAt }

/-- Rebuild a snapshot from a row and its ordered output lines
(`GetByID`, second half). -/
def TaskRow.toData (r : TaskRow) (output : List String) : TaskData :=
  { id := r.id, tool := r.tool, command := r.command, args := r.args,
    status := r.status, output := output, error := r.error,
    createdAt := r.createdAt, startedAt := r.startedAt, endedAt := r.endedAt }

/-- The task-side store state: the `tasks` rows and the `task_outputs`
rows `(task_id, output)` in auto-increment (insertion) order. -/
structure StoreState where
  tasks : List TaskRow
  outputs : List (String × String)
deriving DecidableEq, Repr

/-- `SQLiteRepository.AppendOutput`: skip whitespace-only lines, otherwise
insert a `task_outputs` row.  Never fails in the model. -/
def storeAppendOutput (st : StoreState) (taskID : String) (output : String) :
    StoreState :=
  if goTrimSpace output = "" then st
  else { st with outputs := st.outputs ++ [(taskID, output)] }

/-- `SQLiteRepository.Create`: insert the `tasks` row (the id is the
primary key, so a duplicate id fails and changes nothing), then insert any
pre-existing output lines. -/
def storeCreate (st : StoreState) (data : TaskData) :
    StoreState × Option String :=
  if st.tasks.any (fun r => r.id = data.id) then
    (st, some "failed to create task: UNIQUE constraint failed: tasks.id")
  else
    let st := { st with tasks := st.tasks ++ [data.toRow] }
    (data.output.foldl (fun s line => storeAppendOutput s data.id line) st, none)

/-- `SQLiteRepository.Update`: whole-row overwrite of the matching row;
an `UPDATE` on a missing id affects no rows and reports no error. -/
def storeUpdate (st : StoreState) (data : TaskData) : StoreState :=
  { st with tasks := st.tasks.map (fun r => if r.id = data.id then data.toRow else r) }

/-- The output lines of a task in storage order (`ORDER BY timestamp`). -/
def storeOutputsFor (st : StoreState) (id : String) : List String :=
  (st.outputs.filter (fun p => p.1 = id)).map (fun p => p.2)

/-- `SQLiteRepository.GetByID`: the row plus its ordered output lines, or
a not-found error. -/
def storeGetByID (st : StoreState) (id : String) : Option TaskData :=
  (st.tasks.find? (fun r => r.id = id)).map
    (fun r => r.toData (storeOutputsFor st id))

end Commander

namespace Commander

/-! The manager (`internal/task/manager.go`), together with the API cancel
handler and the executor's worker code that drives it. -/

/-- `TaskEvent` (manager.go). -/
structure TaskEvent where
  taskId : String
  type : String
  data : String
deriving DecidableEq, Repr

/-- A per-tool bounded queue (`chan *Task` with capacity `cap`); the
buffer holds task ids, resolved through the cache, which is never evicted. -/
structure Queue where
  cap : Nat
  buf : List String
deriving DecidableEq, Repr

/-- The manager's owned state: the store, the in-memory task cache, the
per-tool queues, and the log of broadcast events.  `broadcastEvent`
delivers to every listener (dropping only on a full sink), so the event
log records what every keeping-up subscriber observes, in order. -/
structure ManagerState where
  store : StoreState
  tasks : List (String × TaskData)
  queues : List (String × Queue)
  events : List TaskEvent
deriving DecidableEq, Repr

/-- Association-list lookup (Go map read). -/
def alistFind {α : Type} (xs : List (String × α)) (key : String) : Option α :=
  match xs with
  | [] => none
  | (k, v) :: rest => if k = key then some v else alistFind rest key

/-- Association-list update of an existing entry (mutation of the mapped
value in place; absent keys are untouched). -/
def alistUpdate {α : Type} : List (String × α) → String → (α → α) →
    List (String × α)
  | [], _, _ => []
  | (k, v) :: rest, key, f =>
    if k = key then (k, f v) :: alistUpdate rest key f
    else (k, v) :: alistUpdate rest key f

/-- `Manager.CreateQueue`: idempotent; create a bounded queue for the tool
if none exists. -/
def createQueue (m : ManagerState) (tool : String) (bufferSize : Nat) :
    ManagerState :=
  match alistFind m.queues tool with
  | some _ => m
  | none => { m with queues := m.queues ++ [(tool, ⟨bufferSize, []⟩)] }

/-- `Manager.broadcastEvent`: append to the event log. -/
def broadcastEvent (m : ManagerState) (e : TaskEvent) : ManagerState :=
  { m with events := m.events ++ [e] }

/-- `Manager.AddTask`: reject a cached duplicate id; otherwise persist via
`Store.Create`, insert into the cache, and then attempt a non-blocking
push to the tool's queue, broadcasting a `created` event on success.  The
result pairs the post-call state with the returned error, if any: on a
full queue (or a missing queue) the store record and cache entry remain. -/
def addTask (m : ManagerState) (task : TaskData) :
    ManagerState × Option String :=
  if (alistFind m.tasks task.id).isSome then
    (m, some ("task " ++ task.id ++ " already exists"))
  else
    match storeCreate m.store task.clone with
    | (_, some e) => (m, some ("failed to save task to database: " ++ e))
    | (st, none) =>
      let m := { m with store := st, tasks := m.tasks ++ [(task.id, task)] }
      match alistFind m.queues task.tool with
      | some q =>
        if q.buf.length < q.cap then
          let m := { m with
            queues := alistUpdate m.queues task.tool
              (fun q => { q with buf := q.buf ++ [task.id] }) }
          (broadcastEvent m
            ⟨task.id, "created",
             "Task " ++ task.id ++ " queued for " ++ task.tool⟩, none)
        else
          (m, some ("queue for " ++ task.tool ++ " is full"))
      | none => (m, some ("no queue for tool " ++ task.tool))

/-- `Manager.GetTask`: the live cache entry, else the persisted snapshot. -/
def getTask (m : ManagerState) (id : String) : Option TaskData :=
  match alistFind m.tasks id with
  | some t => some t
  | none => storeGetByID m.store id

/-- `Manager.UpdateTaskStatus`: look the task up, apply `SetStatus` (a
mutation visible in the cache only when the entity is cached), persist the
snapshot best-effort via `Store.Update`, and broadcast a `status` event. -/
def updateTaskStatus (m : ManagerState) (id : String) (status : Status)
    (now : Time) : ManagerState × Option String :=
  match getTask m id with
  | none => (m, some ("task " ++ id ++ " not found"))
  | some t =>
    let t' := t.setStatus status now
    let m := { m with tasks := alistUpdate m.tasks id (fun _ => t'),
                      store := storeUpdate m.store t'.clone }
    (broadcastEvent m ⟨id, "status", status.toGoString⟩, none)

/-- `Manager.AppendTaskOutput`: look the task up, append the line to the
entity, persist the line best-effort via `Store.AppendOutput`, and
broadcast an `output` event. -/
def appendTaskOutput (m : ManagerState) (id : String) (output : String) :
    ManagerState × Option String :=
  match getTask m id with
  | none => (m, some ("task " ++ id ++ " not found"))
  | some t =>
    let t' := t.appendOutput output
    let m := { m with tasks := alistUpdate m.tasks id (fun _ => t'),
                      store := storeAppendOutput m.store id output }
    (broadcastEvent m ⟨id, "output", output⟩, none)

/-- `Server.cancelTask` (api/server.go): set the task's status to
`Canceled` through the manager; nothing else (no context is cancelled,
no signal is sent to a process). -/
def cancelTask (m : ManagerState) (id : String) (now : Time) :
    ManagerState × Option String :=
  updateTaskStatus m id .canceled now

end Commander

namespace Commander

/-! The executor (`internal/executor/executor.go`).  The child process's
observable behaviour is passed in as a `ProcessOutcome`; `ctxCanceled`
models `e.ctx.Err() != nil`, the Executor-wide shutdown context. -/

/-- One line as forwarded by `Executor.readOutput`: stderr lines get the
literal `[ERROR] ` prefix, stdout lines pass unchanged. -/
def readLine (isError : Bool) (line : String) : String :=
  if isError then "[ERROR] " ++ line else line

/-- `Executor.readOutput` over a whole pipe: forward each scanned line,
in order, through `Manager.AppendTaskOutput`. -/
def pumpPipe (m : ManagerState) (taskID : String) (isError : Bool)
    (lines : List String) : ManagerState :=
  lines.foldl (fun s l => (appendTaskOutput s taskID (readLine isError l)).1) m

/-- Mutate the cached entity's error message (`t.SetError` on the queued
`*Task`, which is the cache entry). -/
def setTaskError (m : ManagerState) (id : String) (err : String) :
    ManagerState :=
  { m with tasks := alistUpdate m.tasks id (fun t => t.setError err) }

/-- The tail of `Executor.executeTask` after `cmd.Wait()`: exit 0 gives
`Complete`; a non-zero exit gives `Canceled` when the Executor-wide
context is cancelled and otherwise `Failed` with
`error = "Command failed: <detail>"`. -/
def observeExit (m : ManagerState) (id : String) (exitOk ctxCanceled : Bool)
    (detail : String) (now : Time) : ManagerState :=
  if exitOk then (updateTaskStatus m id .complete now).1
  else if ctxCanceled then (updateTaskStatus m id .canceled now).1
  else
    (updateTaskStatus (setTaskError m id ("Command failed: " ++ detail))
      id .failed now).1

/-- The observable behaviour of one attempted child process run. -/
structure ProcessOutcome where
  stdoutPipeOk : Bool
  stderrPipeOk : Bool
  startOk : Bool
  arrivals : List (Bool × String)
  exitOk : Bool
  detail : String

/-- `Executor.executeTask`: unconditionally transition the dequeued task
to `Running`; fail with a descriptive error if a pipe cannot be created or
the command cannot start; otherwise pump the output lines (given here as
the merged arrival order, each flagged with its pipe) and classify the
exit per `observeExit`. -/
def executeTask (m : ManagerState) (id : String) (po : ProcessOutcome)
    (ctxCanceled : Bool) (tRun tEnd : Time) : ManagerState :=
  let m := (updateTaskStatus m id .running tRun).1
  if !po.stdoutPipeOk then
    (updateTaskStatus
      (setTaskError m id ("Failed to create stdout pipe: " ++ po.detail))
      id .failed tEnd).1
  else if !po.stderrPipeOk then
    (updateTaskStatus
      (setTaskError m id ("Failed to create stderr pipe: " ++ po.detail))
      id .failed tEnd).1
  else if !po.startOk then
    (updateTaskStatus
      (setTaskError m id ("Failed to start command: " ++ po.detail))
      id .failed tEnd).1
  else
    let m := po.arrivals.foldl
      (fun s a => (appendTaskOutput s id (readLine a.1 a.2)).1) m
    observeExit m id po.exitOk ctxCanceled po.detail tEnd

/-- One iteration of `Executor.worker` when a task is available: dequeue
the head of the tool's queue and run `executeTask` on it, with no check of
the task's current status. -/
def workerStep (m : ManagerState) (tool : String) (po : ProcessOutcome)
    (ctxCanceled : Bool) (tRun tEnd : Time) : ManagerState :=
  match alistFind m.queues tool with
  | none => m
  | some q =>
    match q.buf with
    | [] => m
    | id :: rest =>
      let m := { m with
        queues := alistUpdate m.queues tool (fun q => { q with buf := rest }) }
      executeTask m id po ctxCanceled tRun tEnd

end Commander

namespace Commander

/-! The artifact store (`SQLiteRepository`, directory and file tables) and
the registration path of the files package. -/

/-- A row of `download_directories`. -/
structure DirRec where
  id : String
  name : String
  path : String
  toolName : Option String
  defaultDir : Bool
deriving DecidableEq, Repr

/-- A row of `files`, with its `file_tags` rows inlined. -/
structure FileRec where
  id : String
  filename : String
  path : String
  directoryId : String
  taskId : Option String
  size : Nat
  mimeType : String
  tags : List String
deriving DecidableEq, Repr

/-- The artifact-side store state. -/
structure FileStore where
  directories : List DirRec
  files : List FileRec
deriving DecidableEq, Repr

/-- `SQLiteRepository.CreateDirectory`: insert, failing on a duplicate
primary key and changing nothing in that case. -/
def storeCreateDirectory (st : FileStore) (dir : DirRec) :
    FileStore × Option String :=
  if st.directories.any (fun d => d.id = dir.id) then
    (st, some "failed to create directory: UNIQUE constraint failed")
  else
    ({ st with directories := st.directories ++ [dir] }, none)

/-- `SQLiteRepository.CreateFile`: insert, failing on a duplicate primary
key or on the UNIQUE index over `file_path`, and changing nothing in
either case. -/
def storeCreateFile (st : FileStore) (file : FileRec) :
    FileStore × Option String :=
  if st.files.any (fun f => f.id = file.id || f.path = file.path) then
    (st, some "failed to create file: UNIQUE constraint failed")
  else
    ({ st with files := st.files ++ [file] }, none)

/-- The environment of a registration: `os.Stat` and
`mime.TypeByExtension` (the latter keyed on the full path for brevity;
only its emptiness is ever inspected here). -/
structure FilesEnv where
  fs : Fs
  mimeOf : String → String

/-- `Manager.CreateDirectory` of the files package: make the directory on
disk (no effect in the model) and persist the record. -/
def createDirectory (st : FileStore) (dir : DirRec) :
    FileStore × Option String :=
  storeCreateDirectory st dir

/-- The `types.File` record `RegisterFileFromTask` builds: fresh id,
base filename, full path, resolved directory, owning task, stat size, and
the MIME type with an `application/octet-stream` fallback. -/
def mkFileRec (env : FilesEnv) (taskID filePath targetDirID fid : String)
    (info : FileInfo) : FileRec :=
  { id := fid, filename := goBaseName filePath, path := filePath,
    directoryId := targetDirID, taskId := some taskID, size := info.size,
    mimeType :=
      (if env.mimeOf filePath = "" then "application/octet-stream"
       else env.mimeOf filePath),
    tags := [] }

/-- `Manager.RegisterFileFromTask`: stat the path; resolve the target
directory (the explicit one, else the unique default, else a freshly
created `./downloads` default); look up the MIME type with an
`application/octet-stream` fallback; insert the `files` row.  `fid` and
`did` supply the `uuid.New()` results for the file record and, when
needed, the default directory record.  Mutations made before a failure
persist, matching the Go control flow. -/
def registerFileFromTask (env : FilesEnv) (st : FileStore)
    (taskID filePath : String) (directoryID : Option String)
    (fid did : String) : FileStore × Option String :=
  match env.fs filePath with
  | none => (st, some "failed to stat file")
  | some info =>
    let resolved : FileStore × Option String × Option String :=
      match directoryID with
      | some d => (st, some d, none)
      | none =>
        match st.directories.find? (fun d => d.defaultDir) with
        | some dir => (st, some dir.id, none)
        | none =>
          match createDirectory st
              ⟨did, "Default Downloads", "./downloads", none, true⟩ with
          | (st', none) => (st', some did, none)
          | (st', some e) =>
            (st', none, some ("failed to create default directory: " ++ e))
    match resolved with
    | (st', _, some e) => (st', some e)
    | (st', none, none) => (st', some "failed to resolve directory")
    | (st', some targetDirID, none) =>
      storeCreateFile st' (mkFileRec env taskID filePath targetDirID fid info)

/-- `FileDiscovery.RegisterDiscoveredFiles`: register each discovered
path, logging and swallowing individual failures; the id supply provides
one fresh pair per path.  Always reports success. -/
def registerDiscoveredFiles (env : FilesEnv) (st : FileStore)
    (taskID : String) (filePaths : List (String × String × String)) :
    FileStore :=
  filePaths.foldl
    (fun s entry =>
      (registerFileFromTask env s taskID entry.1 none entry.2.1 entry.2.2).1)
    st

end Commander

namespace Commander

/-! Concrete fixtures used by counterexamples and witnesses. -/

/-- A freshly admitted task (as built by `NewTask("sleep", "sleep",
["60"])`). -/
def sampleTask : TaskData :=
  { id := "t1", tool := "sleep", command := "sleep", args := ["60"],
    status := .queued, output := [], error := "", createdAt := 0,
    startedAt := none, endedAt := none }

/-- A second submission for the same tool. -/
def secondTask : TaskData :=
  { sampleTask with id := "t2" }

/-- A manager whose `sleep` queue (capacity 1) is full with `t1`. -/
def fullQueueManager : ManagerState :=
  { store := { tasks := [sampleTask.toRow], outputs := [] },
    tasks := [("t1", sampleTask)],
    queues := [("sleep", ⟨1, ["t1"]⟩)],
    events := [] }

/-- A task currently running. -/
def runningTask : TaskData :=
  { sampleTask with id := "t3", status := .running, startedAt := some 1 }

/-- A manager caching the running task `t3`. -/
def runningManager : ManagerState :=
  { store := { tasks := [runningTask.toRow], outputs := [] },
    tasks := [("t3", runningTask)],
    queues := [],
    events := [] }

/-- A task cancelled while still queued. -/
def canceledTask : TaskData :=
  { sampleTask with id := "t4", status := .canceled, endedAt := some 2 }

/-- A manager whose `sleep` queue still holds the cancelled task `t4`. -/
def canceledQueuedManager : ManagerState :=
  { store := { tasks := [canceledTask.toRow], outputs := [] },
    tasks := [("t4", canceledTask)],
    queues := [("sleep", ⟨100, ["t4"]⟩)],
    events := [] }

/-- A process run that succeeds immediately with no output. -/
def okOutcome : ProcessOutcome :=
  { stdoutPipeOk := true, stderrPipeOk := true, startOk := true,
    arrivals := [], exitOk := true, detail := "" }

/-- The manager state after cancelling the running `t3` (at time 5) and
then observing a non-zero process exit (at time 6) with the executor-wide
context not cancelled. -/
def c3State : ManagerState :=
  observeExit (cancelTask runningManager "t3" 5).1 "t3" false false
    "exit status 2" 6

/-- The manager state after a worker dequeues the cancelled `t4` and runs
it to a successful exit. -/
def c4State : ManagerState :=
  workerStep canceledQueuedManager "sleep" okOutcome false 3 4

/-- A filesystem holding one non-empty regular file
`/downloads/cat.jpg`. -/
def galleryFs : Fs :=
  fun s => if s = "/downloads/cat.jpg" then some ⟨false, 7⟩ else none

/-- A filesystem holding one non-empty regular file `/tmp/a.mp4`. -/
def ytFs : Fs :=
  fun s => if s = "/tmp/a.mp4" then some ⟨false, 7⟩ else none

/-- A registration environment over `galleryFs` with no MIME table. -/
def galleryEnv : FilesEnv :=
  { fs := galleryFs, mimeOf := fun _ => "" }

/-- An empty artifact store. -/
def emptyFileStore : FileStore :=
  { directories := [], files := [] }

end Commander





namespace Commander

/-! Helper lemmas. -/

theorem alistFind_update_self {α : Type} {xs : List (String × α)} {key : String}
    {v : α} (f : α → α) (h : alistFind xs key = some v) :
    alistFind (alistUpdate xs key f) key = some (f v) := by
  induction xs with
  | nil => simp [alistFind] at h
  | cons p rest ih =>
    obtain ⟨k, w⟩ := p
    by_cases hk : k = key
    · subst hk
      simp [alistFind] at h
      simp [alistUpdate, alistFind, h]
    · simp [alistFind, hk] at h
      simpa [alistUpdate, alistFind, hk] using ih h

theorem alistFind_append_of_none {α : Type} {xs : List (String × α)}
    {key : String} (ys : List (String × α)) (h : alistFind xs key = none) :
    alistFind (xs ++ ys) key = alistFind ys key := by
  induction xs with
  | nil => simp
  | cons p rest ih =>
    by_cases hk : p.1 = key
    · simp [alistFind, hk] at h
    · simp [alistFind, hk] at h ⊢
      exact ih h

theorem getTask_cached {m : ManagerState} {id : String} {t : TaskData}
    (h : alistFind m.tasks id = some t) : getTask m id = some t := by
  simp [getTask, h]

theorem updateTaskStatus_cached {m : ManagerState} {id : String}
    {t : TaskData} (s : Status) (now : Time)
    (h : alistFind m.tasks id = some t) :
    updateTaskStatus m id s now =
      ({ m with
          tasks := alistUpdate m.tasks id (fun _ => t.setStatus s now),
          store := storeUpdate m.store (t.setStatus s now),
          events := m.events ++ [⟨id, "status", s.toGoString⟩] }, none) := by
  simp [updateTaskStatus, getTask_cached h, broadcastEvent, TaskData.clone]

theorem appendTaskOutput_cached {m : ManagerState} {id : String}
    {t : TaskData} (line : String) (h : alistFind m.tasks id = some t) :
    appendTaskOutput m id line =
      ({ m with
          tasks := alistUpdate m.tasks id (fun _ => t.appendOutput line),
          store := storeAppendOutput m.store id line,
          events := m.events ++ [⟨id, "output", line⟩] }, none) := by
  simp [appendTaskOutput, getTask_cached h, broadcastEvent]

theorem setStatus_fields (t : TaskData) (s : Status) (n : Time) :
    (t.setStatus s n).status = s ∧
    (t.setStatus s n).startedAt =
      (if s = .running then some n else t.startedAt) ∧
    (t.setStatus s n).endedAt =
      (if s.isTerminal then some n else t.endedAt) ∧
    (t.setStatus s n).output = t.output ∧
    (t.setStatus s n).error = t.error ∧
    (t.setStatus s n).id = t.id := by
  cases s <;> simp [TaskData.setStatus, Status.isTerminal]

end Commander

namespace Commander

/-! Claim theorems. -/

/-- Claim C1, counterexample: the claim asserts that after
`SetStatus(Complete)` a later `SetStatus(Running)` is rejected as a no-op
leaving status and `startedAt` unchanged; on the concrete task `t1` the
code instead overwrites the status to `Running` and stamps `startedAt`. -/
theorem c1_counterexample :
    ¬ (((sampleTask.setStatus .complete 1).setStatus .running 2).status
         = (sampleTask.setStatus .complete 1).status
       ∧ ((sampleTask.setStatus .complete 1).setStatus .running 2).startedAt
         = (sampleTask.setStatus .complete 1).startedAt) := by
  decide

/-- Claim C1 as amended: `Task.SetStatus` performs no terminal-state
check.  Every call, whatever the current status, overwrites `status` with
the new value, sets `startedAt` when the new status is `Running` and
`endedAt` when it is terminal, and leaves the other fields alone; terminal
states are not absorbing. -/
theorem c1_set_status_unconditional (t : TaskData) (s : Status) (n : Time) :
    (t.setStatus s n).status = s ∧
    (t.setStatus s n).startedAt =
      (if s = .running then some n else t.startedAt) ∧
    (t.setStatus s n).endedAt =
      (if s.isTerminal then some n else t.endedAt) ∧
    (t.setStatus s n).output = t.output ∧
    (t.setStatus s n).error = t.error := by
  have h := setStatus_fields t s n
  exact ⟨h.1, h.2.1, h.2.2.1, h.2.2.2.1, h.2.2.2.2.1⟩

/-- Claim C10: when the submitted task's id is already present in the
manager's cache, `AddTask` returns the duplicate-id error before any side
effect: the cache, the store and every queue are returned exactly as they
were. -/
theorem c10_duplicate_admission_atomic (m : ManagerState) (task : TaskData)
    (h : (alistFind m.tasks task.id).isSome) :
    addTask m task = (m, some ("task " ++ task.id ++ " already exists")) := by
  simp [addTask, h]

/-- Claim C10, witness: the duplicate-id rejection on the concrete full
manager resubmitting `t1`. -/
theorem c10_witness :
    (alistFind fullQueueManager.tasks sampleTask.id).isSome
    ∧ addTask fullQueueManager sampleTask
        = (fullQueueManager, some ("task " ++ sampleTask.id ++ " already exists")) :=
  ⟨by decide, c10_duplicate_admission_atomic fullQueueManager sampleTask (by decide)⟩

end Commander

namespace Commander

theorem storeAppendOutput_tasks (st : StoreState) (id line : String) :
    (storeAppendOutput st id line).tasks = st.tasks := by
  unfold storeAppendOutput
  split <;> rfl

theorem foldl_storeAppendOutput_tasks (ls : List String) (st : StoreState)
    (id : String) :
    (ls.foldl (fun s line => storeAppendOutput s id line) st).tasks = st.tasks := by
  induction ls generalizing st with
  | nil => rfl
  | cons l ls ih => simp [List.foldl_cons, ih, storeAppendOutput_tasks]

/-- Claim C2, counterexample: submitting `t2` while the `sleep` queue is
full does return the queue-full error, but the claim's conclusion fails:
the store then does hold a record for `t2` with status `Queued`. -/
theorem c2_counterexample :
    (addTask fullQueueManager secondTask).2 = some "queue for sleep is full"
    ∧ ¬ (∀ r ∈ (addTask fullQueueManager secondTask).1.store.tasks,
          r.id = "t2" → r.status ≠ .queued) := by
  decide

/-- Claim C2 as amended: admission is not all-or-nothing.  When the tool's
queue is full, `AddTask` returns the queue-full error, but by then the
task has already been persisted — the store holds its row with status
`Queued` — and it has been inserted into the cache; neither is removed or
marked `Failed`. -/
theorem c2_queue_full_leaves_queued_record (m : ManagerState)
    (task : TaskData) (q : Queue)
    (hnc : alistFind m.tasks task.id = none)
    (hns : ∀ r ∈ m.store.tasks, r.id ≠ task.id)
    (hq : alistFind m.queues task.tool = some q)
    (hfull : q.cap ≤ q.buf.length)
    (hst : task.status = .queued) :
    (addTask m task).2 = some ("queue for " ++ task.tool ++ " is full")
    ∧ task.toRow ∈ (addTask m task).1.store.tasks
    ∧ task.toRow.status = .queued
    ∧ alistFind (addTask m task).1.tasks task.id = some task := by
  have hany : (m.store.tasks.any (fun r => r.id = task.id)) = false := by
    simp only [List.any_eq_false, decide_eq_true_eq]
    exact hns
  have hnotlt : ¬ (q.buf.length < q.cap) := not_lt.mpr hfull
  have hrow : task.toRow.status = .queued := by
    simp [TaskData.toRow, hst]
  have hres : addTask m task =
      ({ m with
          store := task.output.foldl
            (fun s line => storeAppendOutput s task.id line)
            { m.store with tasks := m.store.tasks ++ [task.toRow] },
          tasks := m.tasks ++ [(task.id, task)] },
       some ("queue for " ++ task.tool ++ " is full")) := by
    unfold addTask storeCreate
    simp only [hnc, Option.isSome_none, Bool.false_eq_true, if_false,
      TaskData.clone, hany, hq, hnotlt]
  rw [hres]
  refine ⟨rfl, ?_, hrow, ?_⟩
  · simp [foldl_storeAppendOutput_tasks]
  · rw [alistFind_append_of_none _ hnc]
    simp [alistFind]

/-- Claim C2 (amended), witness: the concrete full-queue submission. -/
theorem c2_witness :
    alistFind fullQueueManager.tasks secondTask.id = none
    ∧ (∀ r ∈ fullQueueManager.store.tasks, r.id ≠ secondTask.id)
    ∧ alistFind fullQueueManager.queues secondTask.tool
        = some ⟨1, ["t1"]⟩
    ∧ ((1 : Nat) ≤ (["t1"] : List String).length)
    ∧ secondTask.status = .queued
    ∧ ((addTask fullQueueManager secondTask).2
        = some ("queue for " ++ secondTask.tool ++ " is full")
      ∧ secondTask.toRow ∈ (addTask fullQueueManager secondTask).1.store.tasks
      ∧ secondTask.toRow.status = .queued
      ∧ alistFind (addTask fullQueueManager secondTask).1.tasks secondTask.id
          = some secondTask) :=
  ⟨by decide, by decide, by decide, by decide, by decide,
   c2_queue_full_leaves_queued_record fullQueueManager secondTask ⟨1, ["t1"]⟩
     (by decide) (by decide) (by decide) (by decide) (by decide)⟩

end Commander

namespace Commander

theorem updateTaskStatus_events_mono (m : ManagerState) (id : String)
    (s : Status) (now : Time) {e : TaskEvent} (he : e ∈ m.events) :
    e ∈ (updateTaskStatus m id s now).1.events := by
  unfold updateTaskStatus
  cases hg : getTask m id <;> simp [broadcastEvent, he]

theorem appendTaskOutput_events_mono (m : ManagerState) (id line : String)
    {e : TaskEvent} (he : e ∈ m.events) :
    e ∈ (appendTaskOutput m id line).1.events := by
  unfold appendTaskOutput
  cases hg : getTask m id <;> simp [broadcastEvent, he]

theorem setTaskError_events (m : ManagerState) (id err : String) :
    (setTaskError m id err).events = m.events := rfl

theorem observeExit_events_mono (m : ManagerState) (id : String)
    (exitOk ctxC : Bool) (detail : String) (now : Time) {e : TaskEvent}
    (he : e ∈ m.events) :
    e ∈ (observeExit m id exitOk ctxC detail now).events := by
  unfold observeExit
  by_cases h1 : exitOk = true
  · simp only [h1, if_true]
    exact updateTaskStatus_events_mono _ _ _ _ he
  · by_cases h2 : ctxC = true
    · simp only [h1, h2, if_true, if_false]
      exact updateTaskStatus_events_mono _ _ _ _ he
    · simp only [h1, h2, if_false]
      refine updateTaskStatus_events_mono _ _ _ _ ?_
      rw [setTaskError_events]
      exact he

theorem pump_fold_events_mono (arrivals : List (Bool × String))
    (m : ManagerState) (id : String) {e : TaskEvent} (he : e ∈ m.events) :
    e ∈ (arrivals.foldl
          (fun s a => (appendTaskOutput s id (readLine a.1 a.2)).1) m).events := by
  induction arrivals generalizing m with
  | nil => exact he
  | cons a rest ih =>
    exact ih _ (appendTaskOutput_events_mono _ _ _ he)

theorem executeTask_contains_running (m : ManagerState) (id : String)
    (po : ProcessOutcome) (ctx : Bool) (tRun tEnd : Time) (t : TaskData)
    (h : alistFind m.tasks id = some t) :
    TaskEvent.mk id "status" "running"
      ∈ (executeTask m id po ctx tRun tEnd).events := by
  have h1 := updateTaskStatus_cached (m := m) .running tRun h
  have hev : TaskEvent.mk id "status" "running"
      ∈ (updateTaskStatus m id .running tRun).1.events := by
    rw [h1]
    simp [Status.toGoString]
  unfold executeTask
  by_cases hso : po.stdoutPipeOk = true
  · by_cases hse : po.stderrPipeOk = true
    · by_cases hst : po.startOk = true
      · simp only [hso, hse, hst, Bool.not_true, Bool.false_eq_true, if_false]
        exact observeExit_events_mono _ _ _ _ _ _
          (pump_fold_events_mono _ _ _ hev)
      · simp only [hso, hse, hst, Bool.not_true, Bool.not_false,
          Bool.false_eq_true, if_false, if_true]
        refine updateTaskStatus_events_mono _ _ _ _ ?_
        rw [setTaskError_events]
        exact hev
    · simp only [hso, hse, Bool.not_true, Bool.not_false,
        Bool.false_eq_true, if_false, if_true]
      refine updateTaskStatus_events_mono _ _ _ _ ?_
      rw [setTaskError_events]
      exact hev
  · simp only [hso, Bool.not_false, Bool.not_true, if_true]
    refine updateTaskStatus_events_mono _ _ _ _ ?_
    rw [setTaskError_events]
    exact hev

end Commander

namespace Commander

/-- Claim C3, counterexample: `t3` is Running; the cancel request is
observed (time 5) before the process exit; the subsequent non-zero exit
(time 6, executor-wide context not cancelled) yields terminal status
`Failed`, not `Canceled` as the claim asserts. -/
theorem c3_counterexample :
    runningTask.status = .running
    ∧ (alistFind c3State.tasks "t3").map TaskData.status = some .failed
    ∧ ¬ ((alistFind c3State.tasks "t3").map TaskData.status = some .canceled) := by
  decide

/-- Claim C3 as amended: cancelling a Running task sets its status to
`Canceled` immediately, but the cancel request does not reach the worker:
when the process exit is then observed, the worker reclassifies the task
by the exit status and the executor-wide shutdown context alone — exit 0
gives `Complete`, a non-zero exit gives `Canceled` only when the
executor-wide context was cancelled (shutdown) and otherwise `Failed`,
overwriting the earlier `Canceled`. -/
theorem c3_exit_observation_ignores_cancel (m : ManagerState) (id : String)
    (t : TaskData) (tc te : Time) (exitOk ctxC : Bool) (detail : String)
    (h : alistFind m.tasks id = some t) :
    ∃ t', alistFind
        (observeExit (cancelTask m id tc).1 id exitOk ctxC detail te).tasks id
        = some t'
      ∧ t'.status =
          (if exitOk then Status.complete
           else if ctxC then Status.canceled else Status.failed) := by
  have hcancel := updateTaskStatus_cached (m := m) .canceled tc h
  have h1 : alistFind (cancelTask m id tc).1.tasks id
      = some (t.setStatus .canceled tc) := by
    unfold cancelTask
    rw [hcancel]
    exact alistFind_update_self _ h
  unfold observeExit
  by_cases he : exitOk = true
  · simp only [he, if_true]
    refine ⟨(t.setStatus .canceled tc).setStatus .complete te, ?_,
      (setStatus_fields _ .complete te).1⟩
    rw [updateTaskStatus_cached .complete te h1]
    exact alistFind_update_self _ h1
  · by_cases hc : ctxC = true
    · simp only [he, hc, Bool.false_eq_true, if_false, if_true]
      refine ⟨(t.setStatus .canceled tc).setStatus .canceled te, ?_,
        (setStatus_fields _ .canceled te).1⟩
      rw [updateTaskStatus_cached .canceled te h1]
      exact alistFind_update_self _ h1
    · simp only [he, hc, Bool.false_eq_true, if_false]
      have h2 : alistFind
          (setTaskError (cancelTask m id tc).1 id
            ("Command failed: " ++ detail)).tasks id
          = some ((t.setStatus .canceled tc).setError
              ("Command failed: " ++ detail)) := by
        unfold setTaskError
        exact alistFind_update_self _ h1
      refine ⟨((t.setStatus .canceled tc).setError
          ("Command failed: " ++ detail)).setStatus .failed te, ?_,
        (setStatus_fields _ .failed te).1⟩
      rw [updateTaskStatus_cached .failed te h2]
      exact alistFind_update_self _ h2

/-- Claim C3 (amended), witness: the concrete cancel-then-fail run. -/
theorem c3_witness :
    alistFind runningManager.tasks "t3" = some runningTask
    ∧ (∃ t', alistFind
        (observeExit (cancelTask runningManager "t3" 5).1 "t3" false false
          "exit status 2" 6).tasks "t3" = some t'
      ∧ t'.status =
          (if false then Status.complete
           else if false then Status.canceled else Status.failed)) :=
  ⟨by decide,
   c3_exit_observation_ignores_cancel runningManager "t3" runningTask 5 6
     false false "exit status 2" (by decide)⟩

/-- Claim C4, counterexample: `t4` is `Canceled` at the moment the worker
dequeues it, yet the worker does not skip execution: the broadcast log
after the worker step contains the `running` status transition for `t4`
(and the run then terminates it as `Complete`). -/
theorem c4_counterexample :
    canceledTask.status = .canceled
    ∧ (alistFind canceledQueuedManager.queues "sleep").map Queue.buf
        = some ["t4"]
    ∧ TaskEvent.mk "t4" "status" "running" ∈ c4State.events
    ∧ (alistFind c4State.tasks "t4").map TaskData.status = some .complete := by
  decide

/-- Claim C4 as amended: the worker performs no status check on dequeue.
Whatever the dequeued task's current status — including `Canceled` —
`executeTask` unconditionally transitions it to `Running`, emitting the
corresponding status event, and proceeds with the process run. -/
theorem c4_worker_skips_no_terminal_check (m : ManagerState) (tool : String)
    (q : Queue) (id : String) (rest : List String) (po : ProcessOutcome)
    (ctx : Bool) (tRun tEnd : Time) (t : TaskData)
    (hq : alistFind m.queues tool = some q) (hbuf : q.buf = id :: rest)
    (ht : alistFind m.tasks id = some t) :
    TaskEvent.mk id "status" "running"
      ∈ (workerStep m tool po ctx tRun tEnd).events := by
  obtain ⟨cap, buf⟩ := q
  have hbuf' : buf = id :: rest := hbuf
  subst hbuf'
  unfold workerStep
  rw [hq]
  show TaskEvent.mk id "status" "running"
    ∈ (executeTask
        { m with queues := (alistUpdate m.queues tool (fun q => { q with buf := rest })) }
        id po ctx tRun tEnd).events
  exact executeTask_contains_running _ _ _ _ _ _ t ht

/-- Claim C4 (amended), witness: the concrete dequeue of the cancelled
`t4`. -/
theorem c4_witness :
    alistFind canceledQueuedManager.queues "sleep" = some ⟨100, ["t4"]⟩
    ∧ (⟨100, ["t4"]⟩ : Queue).buf = "t4" :: []
    ∧ alistFind canceledQueuedManager.tasks "t4" = some canceledTask
    ∧ TaskEvent.mk "t4" "status" "running"
      ∈ (workerStep canceledQueuedManager "sleep" okOutcome false 3 4).events :=
  ⟨by decide, by decide, by decide,
   c4_worker_skips_no_terminal_check canceledQueuedManager "sleep"
     ⟨100, ["t4"]⟩ "t4" [] okOutcome false 3 4 canceledTask
     (by decide) (by decide) (by decide)⟩

end Commander

namespace Commander

/-- Claim C5: per pipe, every stderr line is forwarded as the literal
`[ERROR] ` prefix concatenated with the line, every stdout line is
forwarded unchanged, and the lines are appended to the task's output in
the order they were read. -/
theorem c5_pipe_lines_prefixed_in_order (m : ManagerState) (id : String)
    (t : TaskData) (isError : Bool) (lines : List String)
    (h : alistFind m.tasks id = some t) :
    (∃ t', alistFind (pumpPipe m id isError lines).tasks id = some t'
        ∧ t'.output = t.output ++ lines.map (readLine isError))
    ∧ (∀ l, readLine true l = "[ERROR] " ++ l)
    ∧ (∀ l, readLine false l = l) := by
  refine ⟨?_, fun l => rfl, fun l => rfl⟩
  induction lines generalizing m t with
  | nil =>
    exact ⟨t, by simpa [pumpPipe] using h, by simp⟩
  | cons l ls ih =>
    have hstep : alistFind
        (appendTaskOutput m id (readLine isError l)).1.tasks id
        = some (t.appendOutput (readLine isError l)) := by
      rw [appendTaskOutput_cached _ h]
      exact alistFind_update_self _ h
    obtain ⟨t', hfind, hout⟩ := ih _ _ hstep
    refine ⟨t', ?_, ?_⟩
    · simpa [pumpPipe, List.foldl_cons] using hfind
    · simp [hout, TaskData.appendOutput]

/-- Claim C5, witness: pumping two stderr lines into the cached `t3`. -/
theorem c5_witness :
    alistFind runningManager.tasks "t3" = some runningTask
    ∧ ((∃ t', alistFind
          (pumpPipe runningManager "t3" true ["boom", "bang"]).tasks "t3"
          = some t'
        ∧ t'.output = runningTask.output
            ++ (["boom", "bang"] : List String).map (readLine true))
      ∧ (∀ l, readLine true l = "[ERROR] " ++ l)
      ∧ (∀ l, readLine false l = l)) :=
  ⟨by decide,
   c5_pipe_lines_prefixed_in_order runningManager "t3" runningTask true
     ["boom", "bang"] (by decide)⟩

/-- Claim C6: `Manager.AppendTaskOutput` succeeds, appends the line to the
in-memory entity, and emits an `output` event carrying the line, while the
store persists the line only when it is not whitespace-only —
`Store.AppendOutput` on a whitespace-only line returns success and inserts
nothing. -/
theorem c6_append_output_entity_event_store (m : ManagerState)
    (id line : String) (t : TaskData) (h : alistFind m.tasks id = some t) :
    (appendTaskOutput m id line).2 = none
    ∧ alistFind (appendTaskOutput m id line).1.tasks id
        = some (t.appendOutput line)
    ∧ (appendTaskOutput m id line).1.events
        = m.events ++ [⟨id, "output", line⟩]
    ∧ (appendTaskOutput m id line).1.store.outputs =
        (if goTrimSpace line = "" then m.store.outputs
         else m.store.outputs ++ [(id, line)])
    ∧ (∀ st : StoreState, ∀ tid l : String,
        goTrimSpace l = "" → storeAppendOutput st tid l = st) := by
  rw [appendTaskOutput_cached _ h]
  refine ⟨rfl, alistFind_update_self _ h, rfl, ?_, ?_⟩
  · unfold storeAppendOutput
    split <;> rfl
  · intro st tid l hl
    unfold storeAppendOutput
    simp [hl]

/-- Claim C6, witness: appending the whitespace-only line `"  "` to the
cached `t3`. -/
theorem c6_witness :
    alistFind runningManager.tasks "t3" = some runningTask
    ∧ ((appendTaskOutput runningManager "t3" "  ").2 = none
      ∧ alistFind (appendTaskOutput runningManager "t3" "  ").1.tasks "t3"
          = some (runningTask.appendOutput "  ")
      ∧ (appendTaskOutput runningManager "t3" "  ").1.events
          = runningManager.events ++ [⟨"t3", "output", "  "⟩]
      ∧ (appendTaskOutput runningManager "t3" "  ").1.store.outputs =
          (if goTrimSpace "  " = "" then runningManager.store.outputs
           else runningManager.store.outputs ++ [("t3", "  ")])
      ∧ (∀ st : StoreState, ∀ tid l : String,
          goTrimSpace l = "" → storeAppendOutput st tid l = st)) :=
  ⟨by decide,
   c6_append_output_entity_event_store runningManager "t3" "  " runningTask
     (by decide)⟩

end Commander

namespace Commander

theorem dedupAux_subset (seen : List String) (fsl : List String) :
    ∀ p ∈ dedupAux seen fsl, p ∈ fsl := by
  induction fsl generalizing seen with
  | nil => intro p hp; simp [dedupAux] at hp
  | cons f rest ih =>
    intro p hp
    unfold dedupAux at hp
    by_cases hf : f ∈ seen
    · simp only [hf, if_true] at hp
      exact List.mem_cons_of_mem _ (ih seen p hp)
    · simp only [hf, if_false] at hp
      rcases List.mem_cons.mp hp with h1 | h1
      · exact h1 ▸ List.mem_cons_self _ _
      · exact List.mem_cons_of_mem _ (ih (f :: seen) p h1)

theorem dedupAux_not_mem_seen (seen : List String) (fsl : List String) :
    ∀ p ∈ dedupAux seen fsl, p ∉ seen := by
  induction fsl generalizing seen with
  | nil => intro p hp; simp [dedupAux] at hp
  | cons f rest ih =>
    intro p hp
    unfold dedupAux at hp
    by_cases hf : f ∈ seen
    · simp only [hf, if_true] at hp
      exact ih seen p hp
    · simp only [hf, if_false] at hp
      rcases List.mem_cons.mp hp with h1 | h1
      · exact h1 ▸ hf
      · intro hs
        exact ih (f :: seen) p h1 (List.mem_cons_of_mem _ hs)

theorem dedupAux_nodup (seen : List String) (fsl : List String) :
    (dedupAux seen fsl).Nodup := by
  induction fsl generalizing seen with
  | nil => simp [dedupAux]
  | cons f rest ih =>
    unfold dedupAux
    by_cases hf : f ∈ seen
    · simp only [hf, if_true]
      exact ih seen
    · simp only [hf, if_false]
      refine List.nodup_cons.mpr ⟨?_, ih (f :: seen)⟩
      intro hmem
      exact dedupAux_not_mem_seen (f :: seen) rest f hmem
        (List.mem_cons_self _ _)

theorem mem_foldl_append {α β : Type} (l : List α) (g : α → List β)
    (acc : List β) (p : β) :
    p ∈ l.foldl (fun a x => a ++ g x) acc ↔ p ∈ acc ∨ ∃ x ∈ l, p ∈ g x := by
  induction l generalizing acc with
  | nil => simp
  | cons x rest ih =>
    rw [List.foldl_cons, ih]
    simp [List.mem_append, or_assoc]

theorem mem_candOf {fs : Fs} {l : String} {re : Re} {p : String}
    (h : p ∈ candOf fs l re) :
    ∃ raw, extract1 re l = some raw ∧ p = goTrimQuotes raw
      ∧ isValidFile fs p = true := by
  unfold candOf at h
  cases hx : extract1 re l with
  | none => rw [hx] at h; simp at h
  | some raw =>
    rw [hx] at h
    simp only at h
    by_cases hv : isValidFile fs (goTrimQuotes raw) = true
    · simp only [hv, if_true, List.mem_singleton] at h
      exact ⟨raw, rfl, h, h ▸ hv⟩
    · simp only [hv, if_false] at h
      simp at h

theorem mem_lineCandidates {fs : Fs} {pats : List Re} {line p : String}
    (h : p ∈ lineCandidates fs pats line) :
    goTrimSpace line ≠ ""
    ∧ startsWithLit (goTrimSpace line) "[ERROR]" = false
    ∧ ∃ re ∈ pats, ∃ raw,
        extract1 re (goTrimSpace line) = some raw
        ∧ p = goTrimQuotes raw ∧ isValidFile fs p = true := by
  unfold lineCandidates at h
  by_cases hskip : (goTrimSpace line = "" ∨
      startsWithLit (goTrimSpace line) "[ERROR]" = true)
  · exfalso
    have : (if goTrimSpace line = "" ||
        startsWithLit (goTrimSpace line) "[ERROR]" then ([] : List String)
        else (pats.foldl (fun acc re =>
          acc ++ candOf fs (goTrimSpace line) re) [])) = [] := by
      rcases hskip with h1 | h1 <;> simp [h1]
    rw [this] at h
    simp at h
  · push_neg at hskip
    obtain ⟨h1, h2⟩ := hskip
    have h2' : startsWithLit (goTrimSpace line) "[ERROR]" = false := by
      simpa using h2
    have : (if goTrimSpace line = "" ||
        startsWithLit (goTrimSpace line) "[ERROR]" then ([] : List String)
        else (pats.foldl (fun acc re =>
          acc ++ candOf fs (goTrimSpace line) re) []))
        = pats.foldl (fun acc re => acc ++ candOf fs (goTrimSpace line) re) [] := by
      simp [h1, h2']
    rw [this] at h
    rcases (mem_foldl_append pats _ [] p).mp h with h3 | ⟨re, hre, hcand⟩
    · simp at h3
    · obtain ⟨raw, hraw, hp, hv⟩ := mem_candOf hcand
      exact ⟨h1, h2', re, hre, raw, hraw, hp, hv⟩

/-- Claim C7, discovery soundness: every path returned by
`DiscoverFilesFromOutput` was extracted (as capture `matches[1]`, quotes
trimmed) by one of the tool's patterns — or by the generic fallback when
the tool has none — from some non-empty, non-`[ERROR]`-prefixed input
line; it stats on disk as a non-directory of size greater than zero; and
the returned list contains no duplicates. -/
theorem c7_discovery_soundness (fs : Fs) (tool : String)
    (output : List String) (p : String)
    (h : p ∈ discoverFilesFromOutput fs tool output) :
    (∃ line ∈ output,
        goTrimSpace line ≠ ""
        ∧ startsWithLit (goTrimSpace line) "[ERROR]" = false
        ∧ ∃ re ∈ patternsFor tool, ∃ raw,
            extract1 re (goTrimSpace line) = some raw
            ∧ p = goTrimQuotes raw)
    ∧ (∃ info, fs p = some info ∧ info.isDir = false ∧ 0 < info.size)
    ∧ (discoverFilesFromOutput fs tool output).Nodup := by
  have hpre : p ∈ output.foldl
      (fun acc line => acc ++ lineCandidates fs (patternsFor tool) line) [] := by
    unfold discoverFilesFromOutput deduplicateFiles at h
    exact dedupAux_subset [] _ p h
  rcases (mem_foldl_append output _ [] p).mp hpre with h0 | ⟨line, hline, hcand⟩
  · simp at h0
  · obtain ⟨h1, h2, re, hre, raw, hraw, hp, hv⟩ := mem_lineCandidates hcand
    refine ⟨⟨line, hline, h1, h2, re, hre, raw, hraw, hp⟩, ?_, ?_⟩
    · unfold isValidFile at hv
      cases hfp : fs p with
      | none => rw [hfp] at hv; simp at hv
      | some info =>
        rw [hfp] at hv
        simp only [Bool.and_eq_true, Bool.not_eq_true'] at hv
        refine ⟨info, rfl, hv.1, ?_⟩
        simpa using hv.2
    · unfold discoverFilesFromOutput deduplicateFiles
      exact dedupAux_nodup [] _

/-- Claim C7, witness: a yt-dlp destination line naming the existing
non-empty file `/tmp/a.mp4`. -/
theorem c7_witness :
    "/tmp/a.mp4" ∈ discoverFilesFromOutput ytFs "yt-dlp"
      ["[download] Destination: /tmp/a.mp4"]
    ∧ ((∃ line ∈ ["[download] Destination: /tmp/a.mp4"],
          goTrimSpace line ≠ ""
          ∧ startsWithLit (goTrimSpace line) "[ERROR]" = false
          ∧ ∃ re ∈ patternsFor "yt-dlp", ∃ raw,
              extract1 re (goTrimSpace line) = some raw
              ∧ "/tmp/a.mp4" = goTrimQuotes raw)
      ∧ (∃ info, ytFs "/tmp/a.mp4" = some info
          ∧ info.isDir = false ∧ 0 < info.size)
      ∧ (discoverFilesFromOutput ytFs "yt-dlp"
          ["[download] Destination: /tmp/a.mp4"]).Nodup) :=
  ⟨by decide,
   c7_discovery_soundness ytFs "yt-dlp"
     ["[download] Destination: /tmp/a.mp4"] "/tmp/a.mp4" (by decide)⟩

end Commander


namespace Commander

theorem storeCreateDirectory_files (st : FileStore) (dir : DirRec) :
    (storeCreateDirectory st dir).1.files = st.files := by
  unfold storeCreateDirectory
  split <;> rfl

theorem register_files_of_path_present (env : FilesEnv) (st : FileStore)
    (taskID filePath : String) (dirID : Option String) (fid did : String)
    (hp : ∃ f ∈ st.files, f.path = filePath) :
    (registerFileFromTask env st taskID filePath dirID fid did).1.files
      = st.files := by
  obtain ⟨f0, hf0, hf0p⟩ := hp
  have hany : ∀ (st' : FileStore), st'.files = st.files →
      ∀ rec : FileRec, rec.path = filePath →
      (storeCreateFile st' rec).1.files = st.files := by
    intro st' hst' rec hrec
    have : st'.files.any (fun f => f.id = rec.id || f.path = rec.path) = true := by
      rw [hst']
      refine List.any_eq_true.mpr ⟨f0, hf0, ?_⟩
      simp [hf0p, hrec]
    unfold storeCreateFile
    simp only [this, if_true]
    exact hst'
  unfold registerFileFromTask
  cases hfs : env.fs filePath with
  | none => rfl
  | some info =>
    simp only
    cases dirID with
    | some d =>
      exact hany st rfl _ rfl
    | none =>
      cases hdef : st.directories.find? (fun d => d.defaultDir) with
      | some dir =>
        simp only [hdef]
        exact hany st rfl _ rfl
      | none =>
        simp only [hdef]
        cases hcd : createDirectory st
            ⟨did, "Default Downloads", "./downloads", none, true⟩ with
        | mk st' e =>
          have hfiles : st'.files = st.files := by
            have h0 := storeCreateDirectory_files st
              ⟨did, "Default Downloads", "./downloads", none, true⟩
            rw [show storeCreateDirectory st
                ⟨did, "Default Downloads", "./downloads", none, true⟩
                = createDirectory st
                ⟨did, "Default Downloads", "./downloads", none, true⟩ from rfl,
              hcd] at h0
            exact h0
          cases e with
          | none =>
            simp only
            exact hany st' hfiles _ rfl
          | some err =>
            simp only
            exact hfiles

theorem register_success (env : FilesEnv) (st : FileStore)
    (taskID filePath : String) (dirID : Option String) (fid did : String)
    (info : FileInfo)
    (hfs : env.fs filePath = some info)
    (hpath : ∀ f ∈ st.files, f.path ≠ filePath)
    (hid : ∀ f ∈ st.files, f.id ≠ fid) :
    (∀ d ∈ st.directories, d.id ≠ did) →
    ∃ rec : FileRec,
      (registerFileFromTask env st taskID filePath dirID fid did).2 = none
      ∧ (registerFileFromTask env st taskID filePath dirID fid did).1.files
          = st.files ++ [rec]
      ∧ rec.path = filePath ∧ rec.id = fid := by
  intro hdid
  have hins : ∀ (st' : FileStore), st'.files = st.files →
      ∀ rec : FileRec, rec.path = filePath → rec.id = fid →
      storeCreateFile st' rec
        = ({ st' with files := st'.files ++ [rec] }, none) := by
    intro st' hst' rec hrec hrid
    have : st'.files.any (fun f => f.id = rec.id || f.path = rec.path) = false := by
      rw [hst']
      refine List.any_eq_false.mpr ?_
      intro f hf
      simp only [Bool.or_eq_true, decide_eq_true_eq, not_or]
      exact ⟨fun h => hid f hf (hrid ▸ h), fun h => hpath f hf (hrec ▸ h)⟩
    unfold storeCreateFile
    simp only [this, Bool.false_eq_true, if_false]
  unfold registerFileFromTask
  rw [hfs]
  simp only
  cases dirID with
  | some d =>
    have h := hins st rfl (mkFileRec env taskID filePath d fid info) rfl rfl
    exact ⟨mkFileRec env taskID filePath d fid info,
      congrArg Prod.snd h, congrArg (fun r => r.1.files) h, rfl, rfl⟩
  | none =>
    cases hdef : st.directories.find? (fun d => d.defaultDir) with
    | some dir =>
      simp only [hdef]
      have h := hins st rfl (mkFileRec env taskID filePath dir.id fid info) rfl rfl
      exact ⟨mkFileRec env taskID filePath dir.id fid info,
        congrArg Prod.snd h, congrArg (fun r => r.1.files) h, rfl, rfl⟩
    | none =>
      simp only [hdef]
      have hcd : createDirectory st
          ⟨did, "Default Downloads", "./downloads", none, true⟩
          = ({ st with directories :=
                st.directories ++ [⟨did, "Default Downloads", "./downloads", none, true⟩] },
             none) := by
        unfold createDirectory storeCreateDirectory
        have : st.directories.any (fun d => d.id = did) = false := by
          refine List.any_eq_false.mpr ?_
          intro d hd
          simpa using hdid d hd
        simp only [this, Bool.false_eq_true, if_false]
      rw [hcd]
      have h := hins
        { st with directories :=
            st.directories ++ [⟨did, "Default Downloads", "./downloads", none, true⟩] }
        rfl (mkFileRec env taskID filePath did fid info) rfl rfl
      exact ⟨mkFileRec env taskID filePath did fid info,
        congrArg Prod.snd h, congrArg (fun r => r.1.files) h, rfl, rfl⟩

/-- Claim C8: artifact registration is idempotent by path.  A first
registration of a fresh path succeeds and inserts exactly one `files`
record for that path; a second registration of the same path (with any
task, directory argument and fresh ids) hits the UNIQUE index on
`file_path`, leaves the file records exactly as they were — the first
record neither removed nor altered — and the store still holds exactly
one record for the path. -/
theorem c8_registration_idempotent_by_path (env : FilesEnv) (st : FileStore)
    (t1 t2 path : String) (d1 d2 : Option String)
    (fid1 did1 fid2 did2 : String) (info : FileInfo)
    (hfs : env.fs path = some info)
    (hpath : ∀ f ∈ st.files, f.path ≠ path)
    (hid : ∀ f ∈ st.files, f.id ≠ fid1)
    (hdid : ∀ d ∈ st.directories, d.id ≠ did1) :
    (registerFileFromTask env st t1 path d1 fid1 did1).2 = none
    ∧ (registerFileFromTask env
        (registerFileFromTask env st t1 path d1 fid1 did1).1
        t2 path d2 fid2 did2).1.files
      = (registerFileFromTask env st t1 path d1 fid1 did1).1.files
    ∧ ((registerFileFromTask env st t1 path d1 fid1 did1).1.files.filter
        (fun f => f.path = path)).length = 1 := by
  obtain ⟨rec, hok, hfiles, hrpath, _⟩ :=
    register_success env st t1 path d1 fid1 did1 info hfs hpath hid hdid
  refine ⟨hok, ?_, ?_⟩
  · refine register_files_of_path_present env _ t2 path d2 fid2 did2 ?_
    refine ⟨rec, ?_, hrpath⟩
    rw [hfiles]
    exact List.mem_append_right _ (List.mem_singleton_self _)
  · rw [hfiles, List.filter_append]
    have h1 : st.files.filter (fun f => decide (f.path = path)) = [] := by
      refine List.filter_eq_nil_iff.mpr ?_
      intro f hf
      simpa using hpath f hf
    have h2 : ([rec] : List FileRec).filter (fun f => decide (f.path = path))
        = [rec] := by
      simp [List.filter, hrpath]
    rw [h1, h2]
    rfl

/-- Claim C8, witness: registering `/downloads/cat.jpg` twice against an
empty store. -/
theorem c8_witness :
    galleryEnv.fs "/downloads/cat.jpg" = some ⟨false, 7⟩
    ∧ ((registerFileFromTask galleryEnv emptyFileStore "tA"
          "/downloads/cat.jpg" none "f1" "d1").2 = none
      ∧ (registerFileFromTask galleryEnv
          (registerFileFromTask galleryEnv emptyFileStore "tA"
            "/downloads/cat.jpg" none "f1" "d1").1
          "tB" "/downloads/cat.jpg" none "f2" "d2").1.files
        = (registerFileFromTask galleryEnv emptyFileStore "tA"
            "/downloads/cat.jpg" none "f1" "d1").1.files
      ∧ ((registerFileFromTask galleryEnv emptyFileStore "tA"
            "/downloads/cat.jpg" none "f1" "d1").1.files.filter
          (fun f => f.path = "/downloads/cat.jpg")).length = 1) :=
  ⟨by decide,
   c8_registration_idempotent_by_path galleryEnv emptyFileStore "tA" "tB"
     "/downloads/cat.jpg" none none "f1" "d1" "f2" "d2" ⟨false, 7⟩
     (by decide) (by decide) (by decide) (by decide)⟩

end Commander

namespace Commander

/-- Claim C9: the spec's pattern table says that for gallery-dl the
extracted path is capture group 2 of `\[(.+)\] (.+\.[A-Za-z0-9]+)$` (the
filename after the bracketed prefix).  The code instead takes
`matches[1]` for every pattern: on the line
`[twitter] /downloads/cat.jpg` it extracts group 1 (`twitter`) — group 2
would be `/downloads/cat.jpg` — and consequently discovery returns
nothing even though `/downloads/cat.jpg` exists as a non-empty file. -/
theorem c9_gallery_dl_extracts_group1_not_group2 :
    extract1 galleryDlRe "[twitter] /downloads/cat.jpg" = some "twitter"
    ∧ groupCapture galleryDlRe 2 "[twitter] /downloads/cat.jpg"
        = some "/downloads/cat.jpg"
    ∧ galleryFs "/downloads/cat.jpg" = some ⟨false, 7⟩
    ∧ discoverFilesFromOutput galleryFs "gallery-dl"
        ["[twitter] /downloads/cat.jpg"] = [] := by
  decide

end Commander
